import Mathlib

/-!
Verification development for the touchswitch window-switcher plugin
(src/touchswitch.cpp).

Modelling conventions, fixed once for the whole file:

* C++ `double` values are modelled as rationals (`ℚ`).  The single quiet-NaN
  sentinel used by the program lives in `touch_x_offset`; it is modelled by
  `Option ℚ`, with `none` standing for NaN.  All arithmetic the program does
  on a possibly-NaN `touch_x_offset` goes through `Option.map`, which matches
  IEEE NaN propagation, and all comparisons `NaN < c` / `NaN >= c` are false
  in C++, which matches the `none` branches below taking neither clamp.
* `std::hypot(vx, vy) > t` for `t ≥ 0` is equivalent to `vx*vx + vy*vy > t*t`
  (squaring is monotone on nonnegatives), so the velocity threshold test is
  embedded squared, exactly.
* `std::round` / `std::roundl` round half away from zero; see `roundAway`.
* Rational division by zero is `0` in Lean while IEEE gives `±inf`.  The only
  place a division by zero is reachable is `calculate_scale` on a zero-sized
  view geometry; the statements about it below only use facts that hold under
  both conventions (they compare against a computation with no zero division,
  at an input where both sides differ under either convention).
* Views are identified by their index in the ordered list returned by
  `get_views()` (the code sorts by pointer value, a stable total order, and
  looks views up with `std::find`; the index is all the core logic uses).  External collaborators (hit test, focused view, plugin activation)
  enter as parameters.
* `scale_data` is the per-view side map; it is modelled as a list of
  `Option ScaleRec` parallel to the window list, `none` meaning "no entry /
  no transformer attached".  `uint32_t` timestamps are modelled as `ℕ`
  assuming monotone clocks (the code subtracts them unsigned).
-/

namespace Touchswitch

/-- Direction committed by a swipe gesture (`swipe_direction_option`). -/
inductive SwipeDir where
  | UNDECIDED
  | VERTICAL
  | HORIZONTAL
deriving DecidableEq

/-- Geometry of a view as returned by `view->get_geometry()`. -/
structure Geometry where
  gx : ℚ
  gy : ℚ
  gw : ℚ
  gh : ℚ
deriving DecidableEq

/-- Observable per-window compositor state touched by the plugin:
`minimized` (set_minimized), `hidden` (set_node_enabled false),
`closeRequested` (view->close()), `raised` (focus_raise_view). -/
structure WindowState where
  geom : Geometry
  minimized : Bool
  hidden : Bool
  closeRequested : Bool
  raised : Bool
deriving DecidableEq

instance : Inhabited WindowState := ⟨⟨⟨0, 0, 0, 0⟩, false, false, false, false⟩⟩

/-- One `view_scale_data` entry: the 2D transformer pose, the in-flight
animation target (if an animation was started towards it), and the
`was_minimized` flag set by the minimize drag action / layout. -/
structure ScaleRec where
  scale_x : ℚ
  scale_y : ℚ
  translation_x : ℚ
  translation_y : ℚ
  animTarget : Option (ℚ × ℚ × ℚ × ℚ)
  was_minimized : Bool
deriving DecidableEq

/-- The record `std::map::operator[]` value-initializes when a key is absent:
null transformer and `was_minimized = false`.  The pose fields of such an
entry are never read by the code before being overwritten. -/
def defaultScaleRec : ScaleRec :=
  { scale_x := 1, scale_y := 1, translation_x := 0, translation_y := 0,
    animTarget := none, was_minimized := false }

/-- The gesture/session scalar state of `wayfire_touchswitch`. -/
structure TSState where
  active : Bool
  hook_set : Bool
  touch_held : Bool
  travelled : Bool
  flick_timestamp : ℕ
  swipe_direction : SwipeDir
  touch_x_offset : Option ℚ
  touch_y_offset : ℚ
  last_selected : Option ℕ
  velocity : ℚ × ℚ
  start_flick : ℚ × ℚ
  last_touch : ℚ × ℚ
  start_touch : ℚ × ℚ
deriving DecidableEq

/-- The whole modelled world: plugin state, the ordered window list
(`get_views()`), the `scale_data` map (parallel list), and the log of
`touchswitch_transformer_added` emissions. -/
structure World where
  st : TSState
  windows : List WindowState
  scaleData : List (Option ScaleRec)
  addedSignals : List ℕ
deriving DecidableEq

/-- Configuration options read by the plugin (option_wrapper_t fields).
`spacing` is an int option in the code; ℚ subsumes it. -/
structure Params where
  workarea_x : ℚ
  workarea_y : ℚ
  workarea_w : ℚ
  workarea_h : ℚ
  spacing : ℚ
  window_scale : ℚ
  allow_scale_zoom : Bool
  minimize_others : Bool
  up_action : String
  down_action : String
  background_action : String
  flick_motion : ℚ
deriving DecidableEq

/-- `max_scale_factor` constant: never zoom past 100%. -/
def max_scale_factor : ℚ := 1

/-- `max_scale_child` constant: children never exceed the parent scale. -/
def max_scale_child : ℚ := 1

/-- Half-away-from-zero rounding, as `std::round` / `std::roundl`. -/
def roundAway (q : ℚ) : ℤ := if 0 ≤ q then ⌊q + 1/2⌋ else -⌊-q + 1/2⌋

/-- Squared speed of a velocity vector. -/
def speedSq (v : ℚ × ℚ) : ℚ := v.1 * v.1 + v.2 * v.2

/-- `is_velocity_zero()`: returns whether the speed is at or below
`velocity_threshold = 0.1` and, as a side effect, zeroes the velocity in that
case.  Modelled as (isZero, new velocity); `hypot(vx,vy) > 0.1` is embedded
as the equivalent squared comparison. -/
def is_velocity_zero (v : ℚ × ℚ) : Bool × (ℚ × ℚ) :=
  if (1/10 : ℚ) * (1/10) < speedSq v then (false, v) else (true, ((0 : ℚ), (0 : ℚ)))

/-- List update at an index (identity when out of range), used for the
`scale_data[view]` / per-view window mutations. -/
def listModify {α : Type} : List α → ℕ → (α → α) → List α
  | [], _, _ => []
  | a :: l, 0, f => f a :: l
  | a :: l, n + 1, f => a :: listModify l n f

/-- Set index `j` of a parallel `Option`-list, padding with `none` (absent
map entries) when the list is shorter; mirrors `std::map` insertion keyed by
view index. -/
def listSetPad : List (Option ScaleRec) → ℕ → Option ScaleRec → List (Option ScaleRec)
  | [], 0, v => [v]
  | [], n + 1, v => none :: listSetPad [] n v
  | _ :: l, 0, v => v :: l
  | a :: l, n + 1, v => a :: listSetPad l n v

/-- Index-aware map starting from index `j`. -/
def mapIdxFrom {α β : Type} (f : ℕ → α → β) : ℕ → List α → List β
  | _, [] => []
  | j, a :: l => f j a :: mapIdxFrom f (j + 1) l

/-- `scaled_width` computed by the layout and motion code:
`std::max(workarea.width * window_scale, 1.0)`. -/
def scaled_w (p : Params) : ℚ := max (p.workarea_w * p.window_scale) 1

/-- `scaled_height`: `std::max(workarea.height * window_scale, 1.0)`. -/
def scaled_h (p : Params) : ℚ := max (p.workarea_h * p.window_scale) 1

/-- `offset_x = workarea.x - scaled_width/2 + workarea.width/2`. -/
def offset_x (p : Params) : ℚ := p.workarea_x - scaled_w p / 2 + p.workarea_w / 2

/-- `offset_y = workarea.y - scaled_height/2 + workarea.height/2`. -/
def offset_y (p : Params) : ℚ := p.workarea_y - scaled_h p / 2 + p.workarea_h / 2

/-- The `calculate_scale` lambda in `layout_slots`: floors the scaled
work-area dimensions to ≥ 1 (`w`, `h`), divides them by the raw view
geometry, and clamps to `max_scale_factor` when zooming in is disallowed.
Note the `max` is applied to the numerators, not to `vg.width`/`vg.height`. -/
def calculate_scale (allow : Bool) (sw sh gw gh : ℚ) : ℚ :=
  let w := max 1 sw
  let h := max 1 sh
  let scale := min (w / gw) (h / gh)
  if allow = false then min scale max_scale_factor else scale

/-- Modelled from the spec: the scale computation as §7 of the spec describes
it, with "zero or near-zero denominators ... floored to a minimum of 1 unit
before division".  Used only to compare against `calculate_scale`. -/
def calculate_scale_floored_denominators (allow : Bool) (sw sh gw gh : ℚ) : ℚ :=
  let w := max 1 sw
  let h := max 1 sh
  let scale := min (w / max 1 gw) (h / max 1 gh)
  if allow = false then min scale max_scale_factor else scale

/-- `setup_view_transform`: writes the target directly to the transformer
while the user is dragging or flicking, otherwise starts an animation from
the current pose to the target. -/
def setup_transform (direct : Bool) (r : ScaleRec) (sx sy tx ty : ℚ) : ScaleRec :=
  if direct then
    { r with scale_x := sx, scale_y := sy, translation_x := tx, translation_y := ty }
  else
    { r with animTarget := some (sx, sy, tx, ty) }

/-- First `add_transformer` overload at the record level: refuses when a
touchswitch transformer is already attached, otherwise creates a fresh
`view_2d_transformer_t` (identity pose). -/
def add_rec1 (sd : Option ScaleRec) : Bool × ScaleRec :=
  match sd with
  | some r => (false, r)
  | none => (true, { scale_x := 1, scale_y := 1, translation_x := 0, translation_y := 0,
                     animTarget := none, was_minimized := false })

/-- Second `add_transformer` overload at the record level: refuses when a
transformer is already attached, otherwise creates one posed at the given
start translation with scale `window_scale` (animate in from below). -/
def add_rec2 (p : Params) (start_x start_y : ℚ) (sd : Option ScaleRec) : Bool × ScaleRec :=
  match sd with
  | some r => (false, r)
  | none => (true, { scale_x := p.window_scale, scale_y := p.window_scale,
                     translation_x := start_x, translation_y := start_y,
                     animTarget := none, was_minimized := false })

/-- `add_transformer(view)` on the world: returns false and changes nothing
when the view already carries the touchswitch transformer; otherwise records
the fresh transformer and emits `touchswitch_transformer_added`. -/
def add_transformer1 (j : ℕ) (w : World) : Bool × World :=
  match w.scaleData.getD j none with
  | some _ => (false, w)
  | none =>
      (true, { w with
          scaleData := listSetPad w.scaleData j (some (add_rec1 none).2)
          addedSignals := w.addedSignals ++ [j] })

/-- `add_transformer(view, start_x, start_y)` on the world. -/
def add_transformer2 (p : Params) (j : ℕ) (start_x start_y : ℚ) (w : World) : Bool × World :=
  match w.scaleData.getD j none with
  | some _ => (false, w)
  | none =>
      (true, { w with
          scaleData := listSetPad w.scaleData j (some (add_rec2 p start_x start_y none).2)
          addedSignals := w.addedSignals ++ [j] })

/-- `get_view(idx)`: bounds-checked lookup, null when out of range.  The
argument is the (signed) rounded offset; a negative value, converted through
`size_t` in the code, wraps to a huge number and fails the `idx >= size`
test the same way the `idx < 0` disjunct does here. -/
def get_view (n : ℕ) (idx : ℤ) : Option ℕ :=
  if 0 ≤ idx ∧ idx < (n : ℤ) then some idx.toNat else none

/-- `get_current_idx()` with its `dassert(!isnan(touch_x_offset))` modelled
as an error result. -/
def get_current_idx (o : Option ℚ) : Except String ℤ :=
  match o with
  | none => Except.error "X offset NaN"
  | some q => Except.ok (roundAway q)

/-- Total version of `get_current_view()` used by `deactivate`/`finalize`:
null when the offset is the NaN sentinel, else the bounds-checked view at the
rounded offset. -/
def current_view (n : ℕ) (o : Option ℚ) : Option ℕ :=
  match o with
  | none => none
  | some q => get_view n (roundAway q)

/-- `get_current_view()` instrumented with the assertion of
`get_current_idx`: the isnan branch returns null before `get_current_idx`
is ever consulted. -/
def get_current_view_e (n : ℕ) (o : Option ℚ) : Except String (Option ℕ) :=
  match o with
  | none => Except.ok none
  | some q => (get_current_idx (some q)).map (get_view n)

/-- Discriminator for `Except` success. -/
def exceptOk {ε α : Type} (e : Except ε α) : Bool :=
  match e with
  | Except.ok _ => true
  | Except.error _ => false

/-- `deactivate()`: computes the final selection from the pan offset, drops
`active`, keeps the render hook (`set_hook`), raises the chosen view and
animates it to identity, and sends every other tracked view either to
identity or (if flagged, or minimize-others, or show-desktop with no
selection) downwards off screen at `window_scale`.  The
`is_velocity_zero` calls inside each `setup_view_transform` zero a
sub-threshold velocity; the call is idempotent so it is modelled once (in
the empty-session corner no call happens; no claim reads velocity there). -/
def deactivate (p : Params) (w : World) : World :=
  let view := current_view w.windows.length w.st.touch_x_offset
  let direct := w.st.touch_held || !(is_velocity_zero w.st.velocity).1
  { st := { w.st with
      active := false
      hook_set := true
      velocity := if w.st.touch_held then w.st.velocity else (is_velocity_zero w.st.velocity).2 },
    windows := (match view with
      | some i => listModify w.windows i (fun win => { win with raised := true })
      | none => w.windows),
    scaleData := mapIdxFrom (fun j sd =>
      match sd with
      | none => none
      | some r =>
          if some j = view then some (setup_transform direct r 1 1 0 0)
          else if r.was_minimized = true ∨ p.minimize_others = true ∨
              (p.background_action = "showdesktop" ∧ view = none) then
            some (setup_transform direct r p.window_scale p.window_scale r.translation_x 1000)
          else some (setup_transform direct r 1 1 0 0)) 0 w.scaleData,
    addedSignals := w.addedSignals }

/-- Body of the `layout_slots` loop for one top-level view `j`: un-minimize
a tracked minimized view (remembering it in `was_minimized`), ensure a
transformer exists (posed below the work area), and assign the slot target.
The world model tracks top-level views; for the root itself the
`child != view` scale clamp never applies, and `new_child` is false because
the transformer was just ensured on the line above the child loop. -/
def layout_one (p : Params) (active direct : Bool) (xo yo : ℚ) (sel : Option ℕ)
    (j : ℕ) (win : WindowState) (sd : Option ScaleRec) :
    WindowState × ScaleRec × Bool :=
  let sw := scaled_w p
  let sh := scaled_h p
  let index_position : ℚ := (j : ℚ) - xo
  let x := offset_x p + (p.spacing + sw) * index_position
  let y := offset_y p + (if sel = some j then yo else 0)
  let wm :=
    match sd with
    | some r => (if win.minimized then { win with minimized := false } else win,
                 some (if win.minimized then { r with was_minimized := true } else r))
    | none => (win, none)
  let ar := add_rec2 p ((p.spacing + sw) * index_position) (offset_y p + p.workarea_h) wm.2
  let r2 :=
    if active = false then setup_transform direct ar.2 1 1 0 0
    else
      let g := wm.1.geom
      let scale := calculate_scale p.allow_scale_zoom sw sh g.gw g.gh
      let dx := x - (g.gx + g.gw / 2) + sw / 2
      let dy := y - (g.gy + g.gh / 2) + sh / 2
      setup_transform direct ar.2 scale scale dx dy
  (wm.1, r2, ar.1)

/-- The `layout_slots` loop over the window list, threading the parallel
`scale_data` list and collecting `transformer_added` emissions. -/
def layout_list (p : Params) (active direct : Bool) (xo yo : ℚ) (sel : Option ℕ) :
    ℕ → List WindowState → List (Option ScaleRec) →
    List WindowState × List (Option ScaleRec) × List ℕ
  | _, [], _ => ([], [], [])
  | j, win :: ws, sds =>
      let one := layout_one p active direct xo yo sel j win (sds.headD none)
      let rest := layout_list p active direct xo yo sel (j + 1) ws sds.tail
      (one.1 :: rest.1, some one.2.1 :: rest.2.1, (if one.2.2 then [j] else []) ++ rest.2.2)

/-- `layout_slots(get_views())` on the world: deactivates when the list is
empty while active, otherwise lays out every view.  `direct` (write the
transformer vs animate) is `touch_held || !is_velocity_zero()`; the latter's
side effect normalizes the velocity exactly when the gesture is not held.
While the offset is the NaN sentinel only the inactive branch of the layout
is ever executed (positions feed only the start pose of new transformers);
the sentinel is read as 0 here and no claim depends on those poses. -/
def layout_world (p : Params) (w : World) : World :=
  if w.windows.length = 0 then
    (if w.st.active then deactivate p w else w)
  else
    let direct := w.st.touch_held || !(is_velocity_zero w.st.velocity).1
    let r := layout_list p w.st.active direct (w.st.touch_x_offset.getD 0) w.st.touch_y_offset
      w.st.last_selected 0 w.windows w.scaleData
    { st := { w.st with
        velocity := if w.st.touch_held then w.st.velocity else (is_velocity_zero w.st.velocity).2
        hook_set := true },
      windows := r.1,
      scaleData := r.2.1,
      addedSignals := w.addedSignals ++ r.2.2 }

/-- `handle_relative_motion(diff, time)`: vertical drags accumulate the
vertical offset; horizontal drags update
`touch_x_offset -= diff.x / (spacing + scaled_width)` and clamp it into
`[0, views.size()-1]`, zeroing the velocity when a bound is hit.  The code
computes `views.size() - 1` in `size_t`, so the upper bound wraps modulo
2^64 when the list is empty. -/
def handle_relative_motion (p : Params) (diff : ℚ × ℚ) (w : World) : World :=
  match w.st.swipe_direction with
  | SwipeDir.VERTICAL =>
      layout_world p
        { w with st := { w.st with touch_y_offset := w.st.touch_y_offset + diff.2 } }
  | SwipeDir.HORIZONTAL =>
      let sw := scaled_w p
      let motion_x := diff.1 / (p.spacing + sw)
      let x1 := w.st.touch_x_offset.map (fun x => x - motion_x)
      let bound : ℚ := (((w.windows.length + 2 ^ 64 - 1) % 2 ^ 64 : ℕ) : ℚ)
      let xv : Option ℚ × (ℚ × ℚ) :=
        match x1 with
        | none => (none, w.st.velocity)
        | some x =>
            if x < 0 then (some 0, ((0 : ℚ), (0 : ℚ)))
            else if bound ≤ x then (some bound, ((0 : ℚ), (0 : ℚ)))
            else (some x, w.st.velocity)
      layout_world p
        { w with st := { w.st with
            touch_y_offset := 0
            touch_x_offset := xv.1
            velocity := xv.2 } }
  | SwipeDir.UNDECIDED => w

/-- The `finalize` loop body per view `j`: show-desktop with no selection
minimizes everything; the chosen view is skipped; minimize-others or a
pending `was_minimized` flag minimizes the rest. -/
def applyMin (p : Params) (view : Option ℕ) (wasMinF : ℕ → Bool) (j : ℕ)
    (win : WindowState) : WindowState :=
  if p.background_action = "showdesktop" ∧ view = none then { win with minimized := true }
  else if some j = view then win
  else if p.minimize_others = true ∨ wasMinF j = true then { win with minimized := true }
  else win

/-- `finalize()`: terminal cleanup.  Reads the selection from the offset,
raises it, applies the pending minimize / show-desktop decisions, removes
every transformer, clears `scale_data`, drops the hooks and resets the
offsets (`touch_x_offset` to NaN).  The transient `operator[]`
default-insertions its loop makes into `scale_data` are wiped by the final
`scale_data.clear()` and are modelled by the default-`false` read. -/
def finalize (p : Params) (w : World) : World :=
  let view := current_view w.windows.length w.st.touch_x_offset
  let windows1 :=
    match view with
    | some i => listModify w.windows i (fun win => { win with raised := true })
    | none => w.windows
  let wasMinF : ℕ → Bool := fun j =>
    match w.scaleData.getD j none with
    | some r => r.was_minimized
    | none => false
  { st := { w.st with
      active := false
      hook_set := false
      touch_x_offset := none
      touch_y_offset := 0 },
    windows := mapIdxFrom (applyMin p view wasMinF) 0 windows1,
    scaleData := w.scaleData.map (fun _ => none),
    addedSignals := w.addedSignals }

/-- `process_input(button, state, position, time)` for BTN_LEFT (the only
button the code reacts to).  `pressed` distinguishes WLR_BUTTON_PRESSED from
RELEASED; `hit` is the external hit test `touchswitch_find_view_at` already
filtered by `should_scale_view`.  On a travelled release the drag action is
resolved (close / minimize / no-op) before flick velocity is computed and a
relayout runs; on a non-travelled release either the pressed view is
selected directly or the background action runs. -/
def process_input (p : Params) (pressed : Bool) (pos : ℚ × ℚ) (time : ℕ)
    (hit : Option ℕ) (w : World) : World :=
  if w.st.active = false then w
  else
    let st0 := { w.st with last_touch := pos, start_touch := pos }
    if pressed then
      { w with st := { st0 with
          swipe_direction := SwipeDir.UNDECIDED
          travelled := false
          touch_held := true
          velocity := ((0 : ℚ), (0 : ℚ))
          flick_timestamp := 0
          last_selected := hit } }
    else
      let st1 := { st0 with touch_held := false }
      if st1.travelled then
        let ws1 :=
          match st1.last_selected with
          | none => (w.windows, w.scaleData)
          | some i =>
              let action :=
                if p.workarea_h / 4 < |st1.touch_y_offset| then
                  (if st1.touch_y_offset < 0 then p.up_action else p.down_action)
                else ""
              if action = "close" then
                (listModify w.windows i
                  (fun win => { win with hidden := true, closeRequested := true }),
                 w.scaleData)
              else if action = "minimize" then
                (w.windows, listModify w.scaleData i
                  (fun sd => some { sd.getD defaultScaleRec with was_minimized := true }))
              else (w.windows, w.scaleData)
        let st2 :=
          if 0 < st1.flick_timestamp ∧ st1.flick_timestamp < time then
            { st1 with velocity :=
                ((st1.start_flick.1 - pos.1) / ((time - st1.flick_timestamp : ℕ) : ℚ),
                 (st1.start_flick.2 - pos.2) / ((time - st1.flick_timestamp : ℕ) : ℚ)) }
          else st1
        let st3 := { st2 with touch_y_offset := 0 }
        let st4 :=
          if st3.flick_timestamp = 0 then
            { st3 with touch_x_offset :=
                st3.touch_x_offset.map (fun q => ((roundAway q : ℤ) : ℚ)) }
          else
            { st3 with
              flick_timestamp := time
              velocity :=
                ((pos.1 - st3.start_flick.1) / ((time - st3.flick_timestamp : ℕ) : ℚ),
                 (pos.2 - st3.start_flick.2) / ((time - st3.flick_timestamp : ℕ) : ℚ)) }
        let st5 := { st4 with
            start_flick := ((0 : ℚ), (0 : ℚ))
            last_touch := ((0 : ℚ), (0 : ℚ))
            start_touch := ((0 : ℚ), (0 : ℚ)) }
        layout_world p { w with st := st5, windows := ws1.1, scaleData := ws1.2 }
      else
        match st1.last_selected with
        | some i => deactivate p { w with st := { st1 with touch_x_offset := some (i : ℚ) } }
        | none =>
            if p.background_action = "ignore" then { w with st := st1 }
            else if p.background_action = "showdesktop" then
              deactivate p { w with st := { st1 with touch_x_offset := none } }
            else deactivate p { w with st := st1 }

/-- Whether any per-view scale animation is still running (`running()` holds
until the duration elapses; the model keeps an animation target until the
next retarget, a conservative over-approximation none of the claims read
while the session is active). -/
def anim_running (w : World) : Bool :=
  w.scaleData.any (fun sd =>
    match sd with
    | some r => r.animTarget.isSome
    | none => false)

/-- One `post_hook` tick at time `t`: the `running` probe already zeroes a
sub-threshold velocity; while a gesture is not held and speed is above the
threshold, friction multiplies the velocity by `flick_motion`; if the speed
is then at or below the threshold the offset is rounded and flick state is
cleared, otherwise a synthetic motion `velocity * elapsed` is replayed
through `handle_relative_motion`.  When neither active nor running the tick
falls through to `finalize`. -/
def post_hook_step (p : Params) (t : ℕ) (w : World) : World :=
  let z1 := is_velocity_zero w.st.velocity
  let w1 := { w with st := { w.st with velocity := z1.2 } }
  let running := anim_running w || !z1.1
  let w2 :=
    if !w1.st.touch_held && !z1.1 then
      let v3 := (w1.st.velocity.1 * p.flick_motion, w1.st.velocity.2 * p.flick_motion)
      let z3 := is_velocity_zero v3
      let w1' := { w1 with st := { w1.st with velocity := z3.2 } }
      if z3.1 then
        layout_world p { w1' with st := { w1'.st with
          touch_x_offset := w1'.st.touch_x_offset.map (fun q => ((roundAway q : ℤ) : ℚ)),
          flick_timestamp := 0, start_flick := ((0 : ℚ), (0 : ℚ)),
          start_touch := ((0 : ℚ), (0 : ℚ)) } }
      else
        let cnt : ℚ := ((t - w1'.st.flick_timestamp : ℕ) : ℚ)
        handle_relative_motion p (w1'.st.velocity.1 * cnt, w1'.st.velocity.2 * cnt)
          { w1' with st := { w1'.st with flick_timestamp := t } }
    else w1
  if w2.st.active || running then w2 else finalize p w2

/-- Iterate `post_hook` over a list of tick timestamps. -/
def run_ticks (p : Params) : List ℕ → World → World
  | [], w => w
  | t :: ts, w => run_ticks p ts (post_hook_step p t w)

/-- The transformer-attachment loop of `activate()`: add a (variant-1)
transformer to every view that is not minimized. -/
def addAll (w : World) : World :=
  (List.range w.windows.length).foldl
    (fun acc j =>
      if (acc.windows.getD j default).minimized then acc else (add_transformer1 j acc).2) w

/-- `activate()`: fails (state untouched) when already active, when the
compositor refuses plugin activation (`pluginOk`), or when the window list
is empty; otherwise resets the gesture flags, points the pan offset at the
externally focused view (index `focused`, or 0 when none), forgets any
stale selection, attaches transformers to non-minimized views and runs the
initial layout.  `get_view_index` asserts the focused view is present, so
`focused` carries its list index. -/
def activate (p : Params) (pluginOk : Bool) (focused : Option ℕ) (w : World) : Bool × World :=
  if w.st.active then (false, w)
  else if !pluginOk then (false, w)
  else if w.windows.length = 0 then (false, w)
  else
    let w1 := { w with st := { w.st with
        travelled := false
        touch_held := false
        touch_x_offset := some ((focused.getD 0 : ℕ) : ℚ)
        last_selected := none
        active := true } }
    (true, layout_world p (addAll w1))

/-- A top-level view together with its transient children, as
`enumerate_views(true)` yields them (the root included). -/
structure ViewTree where
  root : Geometry
  children : List Geometry
deriving DecidableEq

/-- A computed slot target: uniform scale plus translation. -/
structure Target where
  tscale : ℚ
  dx : ℚ
  dy : ℚ
deriving DecidableEq

/-- Target of one member of a view tree in `layout_slots`: its own
`calculate_scale`, clamped for non-root members to `max_scale_child` times
the root scale when zooming is disallowed, and the translation that centers
it at the slot center. -/
def child_target (p : Params) (view_scale : ℚ) (x y : ℚ) (isRoot : Bool)
    (g : Geometry) : Target :=
  let sw := scaled_w p
  let sh := scaled_h p
  let scale0 := calculate_scale p.allow_scale_zoom sw sh g.gw g.gh
  let scale :=
    if p.allow_scale_zoom = false ∧ isRoot = false ∧ 0 < max_scale_child then
      min (max_scale_child * view_scale) scale0
    else scale0
  { tscale := scale, dx := x - (g.gx + g.gw / 2) + sw / 2,
    dy := y - (g.gy + g.gh / 2) + sh / 2 }

/-- The targets `layout_slots` assigns to the members of the tree of the
view at index `j` (root first, then children, the order of
`enumerate_views(true)`); when the session is deactivating every member
animates to the identity instead. -/
def layout_slot_targets (p : Params) (active : Bool) (xo yo : ℚ) (selected : Bool)
    (j : ℕ) (v : ViewTree) : List Target :=
  if active = false then (v.root :: v.children).map (fun _ => ⟨1, 0, 0⟩)
  else
    let sw := scaled_w p
    let x := offset_x p + (p.spacing + sw) * ((j : ℚ) - xo)
    let y := offset_y p + (if selected then yo else 0)
    let view_scale := calculate_scale p.allow_scale_zoom sw (scaled_h p) v.root.gw v.root.gh
    child_target p view_scale x y true v.root ::
      v.children.map (child_target p view_scale x y false)

/-! ### Helper lemmas -/

theorem listModify_length {α : Type} (l : List α) (i : ℕ) (f : α → α) :
    (listModify l i f).length = l.length := by
  induction l generalizing i with
  | nil => rfl
  | cons a l ih =>
    cases i with
    | zero => rfl
    | succ n => simpa [listModify] using ih n

theorem listModify_getD_ne {α : Type} (l : List α) (i j : ℕ) (f : α → α) (d : α)
    (h : j ≠ i) : (listModify l i f).getD j d = l.getD j d := by
  induction l generalizing i j with
  | nil => rfl
  | cons a l ih =>
    cases i with
    | zero =>
      cases j with
      | zero => exact absurd rfl h
      | succ m => simp [listModify]
    | succ n =>
      cases j with
      | zero => simp [listModify]
      | succ m => simpa [listModify] using ih n m (fun hc => h (by omega))

theorem listModify_getD_eq {α : Type} (l : List α) (i : ℕ) (f : α → α) (d : α)
    (h : i < l.length) : (listModify l i f).getD i d = f (l.getD i d) := by
  induction l generalizing i with
  | nil => simp at h
  | cons a l ih =>
    cases i with
    | zero => simp [listModify]
    | succ n => simpa [listModify] using ih n (by simpa using h)

theorem mapIdxFrom_length {α β : Type} (f : ℕ → α → β) (j : ℕ) (l : List α) :
    (mapIdxFrom f j l).length = l.length := by
  induction l generalizing j with
  | nil => rfl
  | cons a l ih => simpa [mapIdxFrom] using ih (j + 1)

theorem mapIdxFrom_id {α : Type} (f : ℕ → α → α) (j : ℕ) (l : List α)
    (h : ∀ k a, f k a = a) : mapIdxFrom f j l = l := by
  induction l generalizing j with
  | nil => rfl
  | cons a l ih => simp [mapIdxFrom, h, ih (j + 1)]

theorem mem_mapIdxFrom {α β : Type} (f : ℕ → α → β) (j : ℕ) (l : List α)
    (P : β → Prop) (h : ∀ k a, P (f k a)) : ∀ b ∈ mapIdxFrom f j l, P b := by
  induction l generalizing j with
  | nil => intro b hb; simp [mapIdxFrom] at hb
  | cons a l ih =>
    intro b hb
    rcases (by simpa [mapIdxFrom] using hb : b = f j a ∨ b ∈ mapIdxFrom f (j + 1) l) with
      h1 | h2
    · exact h1 ▸ h j a
    · exact ih (j + 1) b h2

theorem getD_map_none (l : List (Option ScaleRec)) (j : ℕ) :
    (l.map (fun _ => (none : Option ScaleRec))).getD j none = none := by
  induction l generalizing j with
  | nil => rfl
  | cons a l ih =>
    cases j with
    | zero => rfl
    | succ n => exact ih n

theorem setup_transform_was_minimized (direct : Bool) (r : ScaleRec) (sx sy tx ty : ℚ) :
    (setup_transform direct r sx sy tx ty).was_minimized = r.was_minimized := by
  unfold setup_transform
  split <;> rfl

theorem layout_list_windows_length (p : Params) (a d : Bool) (xo yo : ℚ) (sel : Option ℕ) :
    ∀ (j : ℕ) (ws : List WindowState) (sds : List (Option ScaleRec)),
      (layout_list p a d xo yo sel j ws sds).1.length = ws.length := by
  intro j ws
  induction ws generalizing j with
  | nil => intro sds; rfl
  | cons w ws ih => intro sds; simpa [layout_list] using ih (j + 1) sds.tail

theorem layout_one_preserves_unminimized (p : Params) (a d : Bool) (xo yo : ℚ)
    (sel : Option ℕ) (j : ℕ) (win : WindowState) (sd : Option ScaleRec)
    (h : win.minimized = false) :
    (layout_one p a d xo yo sel j win sd).1 = win := by
  unfold layout_one
  cases sd <;> simp [h]

theorem layout_list_windows_id (p : Params) (a d : Bool) (xo yo : ℚ) (sel : Option ℕ) :
    ∀ (j : ℕ) (ws : List WindowState) (sds : List (Option ScaleRec)),
      (∀ win ∈ ws, win.minimized = false) →
      (layout_list p a d xo yo sel j ws sds).1 = ws := by
  intro j ws
  induction ws generalizing j with
  | nil => intro sds _; rfl
  | cons w ws ih =>
    intro sds hmin
    have h1 : w.minimized = false := hmin w (by simp)
    have h2 : ∀ win ∈ ws, win.minimized = false := fun win hw => hmin win (by simp [hw])
    simp [layout_list, layout_one_preserves_unminimized p a d xo yo sel j w _ h1,
      ih (j + 1) sds.tail h2]

theorem layout_one_was_minimized (p : Params) (a d : Bool) (xo yo : ℚ)
    (sel : Option ℕ) (j : ℕ) (win : WindowState) (r : ScaleRec)
    (h : win.minimized = false) :
    (layout_one p a d xo yo sel j win (some r)).2.1.was_minimized = r.was_minimized := by
  unfold layout_one add_rec2
  simp [h, setup_transform_was_minimized]
  split <;> simp [setup_transform_was_minimized]

theorem layout_list_was_minimized (p : Params) (a d : Bool) (xo yo : ℚ) (sel : Option ℕ) :
    ∀ (j : ℕ) (ws : List WindowState) (sds : List (Option ScaleRec)),
      ws.length = sds.length →
      (∀ win ∈ ws, win.minimized = false) →
      (∀ sd ∈ sds, sd.isSome = true) →
      ∀ k : ℕ, ((layout_list p a d xo yo sel j ws sds).2.1.getD k none).map
          (fun r => r.was_minimized) =
        (sds.getD k none).map (fun r => r.was_minimized) := by
  intro j ws
  induction ws generalizing j with
  | nil =>
    intro sds hlen _ _ k
    have : sds = [] := List.eq_nil_of_length_eq_zero hlen.symm
    subst this
    rfl
  | cons w ws ih =>
    intro sds hlen hmin hsome k
    cases sds with
    | nil => simp at hlen
    | cons sd sds =>
      have hw : w.minimized = false := hmin w (by simp)
      obtain ⟨r, hr⟩ := Option.isSome_iff_exists.mp (hsome sd (by simp))
      subst hr
      cases k with
      | zero =>
        simp [layout_list, layout_one_was_minimized p a d xo yo sel j w r hw]
      | succ m =>
        have := ih (j + 1) sds (by simpa using hlen)
          (fun win hwin => hmin win (by simp [hwin]))
          (fun s hs => hsome s (by simp [hs])) m
        simpa [layout_list] using this

theorem layout_world_st (p : Params) (w : World) (h : w.windows.length ≠ 0) :
    (layout_world p w).st = { w.st with
      velocity := if w.st.touch_held then w.st.velocity else (is_velocity_zero w.st.velocity).2
      hook_set := true } := by
  simp [layout_world, h]

theorem layout_world_windows_length (p : Params) (w : World) (h : w.windows.length ≠ 0) :
    (layout_world p w).windows.length = w.windows.length := by
  simp [layout_world, h, layout_list_windows_length]

theorem deactivate_st_offset (p : Params) (w : World) :
    (deactivate p w).st.touch_x_offset = w.st.touch_x_offset := rfl

theorem deactivate_st_active (p : Params) (w : World) :
    (deactivate p w).st.active = false := rfl

/-! ### Concrete fixtures used by witnesses and counterexamples -/

/-- A 800x600 view at the origin. -/
def exGeom : Geometry := ⟨0, 0, 800, 600⟩

/-- A mapped, unminimized window. -/
def exWindow : WindowState := ⟨exGeom, false, false, false, false⟩

/-- A transformer at the identity pose. -/
def exRec : ScaleRec := ⟨1, 1, 0, 0, none, false⟩

/-- Baseline configuration: 1000x1000 work area, spacing 20, window scale
one half, zoom disallowed, show-desktop background action. -/
def exParams : Params :=
  { workarea_x := 0, workarea_y := 0, workarea_w := 1000, workarea_h := 1000,
    spacing := 20, window_scale := 1/2, allow_scale_zoom := false,
    minimize_others := false, up_action := "close", down_action := "minimize",
    background_action := "showdesktop", flick_motion := 1/2 }

/-- Baseline configuration with the "ignore" background action. -/
def exParamsIgnore : Params := { exParams with background_action := "ignore" }

/-- Baseline configuration with an unrecognized background action. -/
def exParamsPlain : Params := { exParams with background_action := "none" }

/-- An active session state sitting on slot 0 with no gesture in flight. -/
def exStateActive : TSState :=
  { active := true, hook_set := true, touch_held := false, travelled := false,
    flick_timestamp := 0, swipe_direction := SwipeDir.UNDECIDED,
    touch_x_offset := some 0, touch_y_offset := 0, last_selected := none,
    velocity := (0, 0), start_flick := (0, 0), last_touch := (0, 0),
    start_touch := (0, 0) }

/-- An active one-window world with the window tracked and selected slot 0. -/
def exWorld1 : World :=
  { st := exStateActive, windows := [exWindow], scaleData := [some exRec],
    addedSignals := [] }

/-- An inactive three-window world with nothing tracked yet. -/
def exWorldIdle3 : World :=
  { st := { exStateActive with active := false, touch_x_offset := none },
    windows := [exWindow, exWindow, exWindow], scaleData := [], addedSignals := [] }

/-! ### C7 -/

/-- C7, as stated, is false on the code: `calculate_scale` applies the
`std::max(.., 1.0)` flooring to the scaled work-area dimensions (the
numerators), not to the view-geometry denominators, so a zero-sized
geometry is divided without any flooring.  At `vg = 0x0` with zoom allowed
the code's computation differs from the spec's floored-denominator
computation (under IEEE semantics the code yields infinity, under the
rational model 0; both differ from the floored result 500). -/
theorem calculate_scale_denominator_not_floored :
    calculate_scale true 500 500 0 0 ≠
      calculate_scale_floored_denominators true 500 500 0 0 := by
  norm_num [calculate_scale, calculate_scale_floored_denominators]

/-- C7 (amended): the flooring in the per-window scale computation is
applied to the scaled work-area dimensions (the numerators); the
view-geometry denominators are used raw, so the computation agrees with the
spec's floored-denominator computation exactly when the geometry is already
at least one unit in each dimension, in which case both denominators are
nonzero. -/
theorem calculate_scale_floors_numerators (allow : Bool) (sw sh gw gh : ℚ)
    (hg : 1 ≤ gw) (hh : 1 ≤ gh) :
    calculate_scale allow sw sh gw gh =
        calculate_scale_floored_denominators allow sw sh gw gh ∧
      gw ≠ 0 ∧ gh ≠ 0 := by
  refine ⟨?_, fun h => by rw [h] at hg; norm_num at hg,
    fun h => by rw [h] at hh; norm_num at hh⟩
  unfold calculate_scale calculate_scale_floored_denominators
  rw [max_eq_right hg, max_eq_right hh]

/-- Witness for C7's amended theorem at the fixture geometry. -/
theorem calculate_scale_floors_numerators_witness :
    calculate_scale false 500 500 800 600 =
        calculate_scale_floored_denominators false 500 500 800 600 ∧
      (800 : ℚ) ≠ 0 ∧ (600 : ℚ) ≠ 0 :=
  calculate_scale_floors_numerators false 500 500 800 600 (by norm_num) (by norm_num)

/-! ### C9 -/

/-- C9: the pan offset is never read as an index while it is the NaN
sentinel.  `get_current_view` (the only caller of `get_current_idx`)
branches on `isnan` first, so the instrumented computation never reaches the
assertion error, it agrees with the total `current_view` that
`deactivate`/`finalize` consume, and it returns no window whenever the
offset is the sentinel. -/
theorem current_idx_guarded (n : ℕ) (o : Option ℚ) :
    exceptOk (get_current_view_e n o) = true ∧
    get_current_view_e n o = Except.ok (current_view n o) ∧
    (o.isNone = true → get_current_view_e n o = Except.ok none) := by
  cases o with
  | none => exact ⟨rfl, rfl, fun _ => rfl⟩
  | some q => exact ⟨rfl, rfl, fun h => by simp at h⟩

/-- Witness for C9 at the NaN sentinel. -/
theorem current_idx_guarded_witness :
    exceptOk (get_current_view_e 3 none) = true ∧
      get_current_view_e 3 none = Except.ok none :=
  ⟨(current_idx_guarded 3 none).1, (current_idx_guarded 3 none).2.2 rfl⟩

/-! ### C10 -/

/-- C10: when a view already carries a touchswitch transformer, both
`add_transformer` overloads return false and leave the world untouched: no
new transformer, no overwritten pose, no `transformer_added` emission — so
the unconditional calls in every layout pass never stack or reset existing
transforms. -/
theorem add_transformer_no_restack (p : Params) (w : World) (j : ℕ) (sx sy : ℚ)
    (h : (w.scaleData.getD j none).isSome = true) :
    add_transformer1 j w = (false, w) ∧ add_transformer2 p j sx sy w = (false, w) := by
  obtain ⟨r, hr⟩ := Option.isSome_iff_exists.mp h
  unfold add_transformer1 add_transformer2
  rw [hr]
  exact ⟨rfl, rfl⟩

/-- Witness for C10 on a world whose view 0 is already tracked. -/
theorem add_transformer_no_restack_witness :
    add_transformer1 0 exWorld1 = (false, exWorld1) ∧
      add_transformer2 exParams 0 5 7 exWorld1 = (false, exWorld1) :=
  add_transformer_no_restack exParams exWorld1 0 5 7 (by decide)

/-! ### C8 -/

/-- C8, as stated, is false on the code: with the show-desktop background
action configured and a selection present, the first `finalize` skips the
chosen window, but it also resets the pan offset to the NaN sentinel, so a
second `finalize` sees "no selection" and minimizes every window — a
different observable state. -/
theorem roundAway_zero : roundAway 0 = 0 := by norm_num [roundAway]

theorem finalize_twice_showdesktop_differs :
    finalize exParams (finalize exParams exWorld1) ≠ finalize exParams exWorld1 := by
  simp [finalize, current_view, get_view, roundAway_zero, exWorld1, exParams,
    exStateActive, exWindow, exRec, applyMin, mapIdxFrom, listModify, exGeom]

/-- C8 (amended): `finalize()` is idempotent provided the background action
is not "showdesktop" and minimize-others is disabled; otherwise the second
call re-evaluates the minimize policy with the pan offset already reset to
the NaN sentinel and can minimize windows the first call spared. -/
theorem finalize_idempotent_no_bg_minimize (p : Params) (w : World)
    (hbg : p.background_action ≠ "showdesktop") (hmo : p.minimize_others = false) :
    finalize p (finalize p w) = finalize p w := by
  suffices h : ∀ w1 : World, w1.st.touch_x_offset = none → w1.st.active = false →
      w1.st.hook_set = false → w1.st.touch_y_offset = 0 →
      (∀ j, w1.scaleData.getD j none = none) →
      w1.scaleData.map (fun _ => none) = w1.scaleData →
      finalize p w1 = w1 by
    exact h (finalize p w) rfl rfl rfl rfl
      (fun j => getD_map_none w.scaleData j)
      (by simp [finalize, List.map_map])
  intro w1 h1 h2 h3 h4 h5 h6
  have hcv : current_view w1.windows.length w1.st.touch_x_offset = none := by
    rw [h1]; rfl
  have happ : ∀ k a, applyMin p none
      (fun j => match w1.scaleData.getD j none with
        | some r => r.was_minimized
        | none => false) k a = a := by
    intro k a
    have h5k := h5 k
    simp [List.getD] at h5k
    simp [applyMin, h5k, hmo, hbg]
  simp only [finalize, hcv]
  rw [mapIdxFrom_id _ _ _ happ, h6]
  obtain ⟨st, ws, sds, sig⟩ := w1
  obtain ⟨a, hs, th, tr, ft, sw, xo, yo, ls, ve, sf, lt, stc⟩ := st
  simp only at h1 h2 h3 h4
  subst h1; subst h2; subst h3; subst h4
  rfl

/-- Witness for C8's amended theorem: an unrecognized background action. -/
theorem finalize_idempotent_no_bg_minimize_witness :
    finalize exParamsPlain (finalize exParamsPlain exWorld1) =
      finalize exParamsPlain exWorld1 :=
  finalize_idempotent_no_bg_minimize exParamsPlain exWorld1 (by decide) rfl

/-! ### C5 -/

theorem finalize_showdesktop_minimizes (p : Params) (w : World)
    (hbg : p.background_action = "showdesktop") (hx : w.st.touch_x_offset = none) :
    ∀ win ∈ (finalize p w).windows, win.minimized = true := by
  have hcv : current_view w.windows.length w.st.touch_x_offset = none := by
    rw [hx]; rfl
  simp only [finalize, hcv]
  exact mem_mapIdxFrom _ 0 w.windows (fun b : WindowState => b.minimized = true)
    (fun k a => by simp [applyMin, hbg])

/-- C5, as stated, is false on the code: on a non-travelled background
release with the background action "ignore", `process_input` returns before
calling `deactivate()`, so the session stays active and the offset is
untouched — the claim's "the background action is evaluated and the session
deactivates" does not hold for that configured action. -/
theorem background_ignore_stays_active :
    (process_input exParamsIgnore false (5, 5) 100 none exWorld1).st.active = true ∧
    (process_input exParamsIgnore false (5, 5) 100 none exWorld1).st.touch_x_offset =
      some 0 := by
  constructor <;> rfl

/-- C5 (amended): on a release that never left the dead zone: if a window
was selected at press time the pan offset becomes that window's index and
the session deactivates (direct tap-select); otherwise the background
action decides: "ignore" leaves the session active and changes no window,
"showdesktop" sets the pan offset to the NaN no-selection sentinel and
deactivates (so that a later `finalize` minimizes every window), and any
other action deactivates normally. -/
theorem release_not_travelled_spec (p : Params) (pos : ℚ × ℚ) (time : ℕ)
    (hit : Option ℕ) (w : World)
    (ha : w.st.active = true) (ht : w.st.travelled = false) :
    (∀ i, w.st.last_selected = some i →
      (process_input p false pos time hit w).st.touch_x_offset = some (i : ℚ) ∧
      (process_input p false pos time hit w).st.active = false) ∧
    (w.st.last_selected = none → p.background_action = "ignore" →
      (process_input p false pos time hit w).st.active = true ∧
      (process_input p false pos time hit w).st.touch_x_offset = w.st.touch_x_offset ∧
      (process_input p false pos time hit w).windows = w.windows) ∧
    (w.st.last_selected = none → p.background_action = "showdesktop" →
      (process_input p false pos time hit w).st.touch_x_offset = none ∧
      (process_input p false pos time hit w).st.active = false ∧
      ∀ win ∈ (finalize p (process_input p false pos time hit w)).windows,
        win.minimized = true) ∧
    (w.st.last_selected = none → p.background_action ≠ "ignore" →
      p.background_action ≠ "showdesktop" →
      (process_input p false pos time hit w).st.active = false ∧
      (process_input p false pos time hit w).st.touch_x_offset = w.st.touch_x_offset) := by
  refine ⟨fun i hi => ?_, fun h1 h2 => ?_, fun h1 h2 => ?_, fun h1 h2 h3 => ?_⟩
  · simp [process_input, ha, ht, hi, deactivate_st_active, deactivate_st_offset]
  · simp [process_input, ha, ht, h1, h2]
  · have hx : (process_input p false pos time hit w).st.touch_x_offset = none := by
      simp [process_input, ha, ht, h1, h2, deactivate_st_offset]
    refine ⟨hx, ?_, finalize_showdesktop_minimizes p _ h2 hx⟩
    simp [process_input, ha, ht, h1, h2, deactivate_st_active]
  · simp [process_input, ha, ht, h1, h2, h3, deactivate_st_active, deactivate_st_offset]

/-- A one-window world whose press selected window 0. -/
def exWorld1Sel : World :=
  { exWorld1 with st := { exStateActive with last_selected := some 0 } }

/-- Witness for C5's amended theorem: tap-select of window 0. -/
theorem release_not_travelled_spec_witness :
    (process_input exParams false (3, 4) 7 none exWorld1Sel).st.touch_x_offset =
        some ((0 : ℕ) : ℚ) ∧
      (process_input exParams false (3, 4) 7 none exWorld1Sel).st.active = false :=
  (release_not_travelled_spec exParams (3, 4) 7 none exWorld1Sel rfl rfl).1 0 rfl

/-! ### C6 -/

theorem listModify_forall {α : Type} (l : List α) (i : ℕ) (f : α → α) (P : α → Prop)
    (hl : ∀ a ∈ l, P a) (hf : ∀ a ∈ l, P (f a)) : ∀ b ∈ listModify l i f, P b := by
  induction l generalizing i with
  | nil => intro b hb; simp [listModify] at hb
  | cons a l ih =>
    intro b hb
    cases i with
    | zero =>
      rcases (by simpa [listModify] using hb : b = f a ∨ b ∈ l) with h1 | h2
      · exact h1 ▸ hf a (by simp)
      · exact hl b (by simp [h2])
    | succ n =>
      rcases (by simpa [listModify] using hb : b = a ∨ b ∈ listModify l n f) with h1 | h2
      · exact h1 ▸ hl a (by simp)
      · exact ih n (fun x hx => hl x (by simp [hx])) (fun x hx => hf x (by simp [hx])) b h2

theorem layout_world_windows_id (p : Params) (w : World)
    (h0 : w.windows.length ≠ 0) (hmin : ∀ win ∈ w.windows, win.minimized = false) :
    (layout_world p w).windows = w.windows := by
  simp [layout_world, h0, layout_list_windows_id p _ _ _ _ _ 0 w.windows w.scaleData hmin]

theorem layout_world_wasmin (p : Params) (w : World)
    (h0 : w.windows.length ≠ 0) (hlen : w.windows.length = w.scaleData.length)
    (hmin : ∀ win ∈ w.windows, win.minimized = false)
    (hall : ∀ sd ∈ w.scaleData, sd.isSome = true) (k : ℕ) :
    ((layout_world p w).scaleData.getD k none).map (fun r => r.was_minimized) =
      (w.scaleData.getD k none).map (fun r => r.was_minimized) := by
  simp only [layout_world, h0, if_neg h0]
  exact layout_list_was_minimized p _ _ _ _ _ 0 w.windows w.scaleData hlen hmin hall k

/-- C6: on a travelled release with a window selected at press time and a
vertical offset beyond a quarter of the work-area height, the pull-up action
applies when the offset is negative and the pull-down action otherwise;
"close" hides the selected window and issues a close request leaving every
other window untouched, "minimize" only flags the selected window's
`was_minimized`, and any other action name changes no window and no flag. -/
theorem travelled_release_action_spec (p : Params) (pos : ℚ × ℚ) (time : ℕ)
    (hit : Option ℕ) (w : World) (i : ℕ)
    (ha : w.st.active = true) (ht : w.st.travelled = true)
    (hsel : w.st.last_selected = some i) (hi : i < w.windows.length)
    (hmin : ∀ win ∈ w.windows, win.minimized = false)
    (hlen : w.windows.length = w.scaleData.length)
    (hall : ∀ sd ∈ w.scaleData, sd.isSome = true)
    (hdrag : p.workarea_h / 4 < |w.st.touch_y_offset|) :
    ((if w.st.touch_y_offset < 0 then p.up_action else p.down_action) = "close" →
      (process_input p false pos time hit w).windows =
        listModify w.windows i
          (fun win => { win with hidden := true, closeRequested := true }) ∧
      ∀ j, ((process_input p false pos time hit w).scaleData.getD j none).map
          (fun r => r.was_minimized) =
        (w.scaleData.getD j none).map (fun r => r.was_minimized)) ∧
    ((if w.st.touch_y_offset < 0 then p.up_action else p.down_action) = "minimize" →
      (process_input p false pos time hit w).windows = w.windows ∧
      ((process_input p false pos time hit w).scaleData.getD i none).map
          (fun r => r.was_minimized) = some true ∧
      ∀ j, j ≠ i → ((process_input p false pos time hit w).scaleData.getD j none).map
          (fun r => r.was_minimized) =
        (w.scaleData.getD j none).map (fun r => r.was_minimized)) ∧
    ((if w.st.touch_y_offset < 0 then p.up_action else p.down_action) ≠ "close" →
      (if w.st.touch_y_offset < 0 then p.up_action else p.down_action) ≠ "minimize" →
      (process_input p false pos time hit w).windows = w.windows ∧
      ∀ j, ((process_input p false pos time hit w).scaleData.getD j none).map
          (fun r => r.was_minimized) =
        (w.scaleData.getD j none).map (fun r => r.was_minimized)) := by
  have h0 : w.windows.length ≠ 0 := by omega
  have hminM : ∀ b ∈ listModify w.windows i
      (fun win => { win with hidden := true, closeRequested := true }),
      b.minimized = false :=
    listModify_forall w.windows i _ (fun a : WindowState => a.minimized = false) hmin
      (fun a haw => hmin a haw)
  have hallM : ∀ sd ∈ listModify w.scaleData i
      (fun sd => some { sd.getD defaultScaleRec with was_minimized := true }),
      sd.isSome = true :=
    listModify_forall w.scaleData i _ (fun sd : Option ScaleRec => sd.isSome = true) hall
      (fun sd _ => rfl)
  have hms : ¬("minimize" = "close") := by decide
  refine ⟨fun hc => ?_, fun hm => ?_, fun hc hm => ?_⟩
  · constructor
    · simp only [process_input, ha, ht, hsel, hdrag, hc, Bool.true_eq_false,
        Bool.false_eq_true, if_false, if_true, reduceIte]
      rw [layout_world_windows_id]
      · simp only [listModify_length]; omega
      · exact hminM
    · intro j
      simp only [process_input, ha, ht, hsel, hdrag, hc, Bool.true_eq_false,
        Bool.false_eq_true, if_false, if_true, reduceIte]
      rw [layout_world_wasmin]
      · simp only [listModify_length]; omega
      · simp only [listModify_length]; exact hlen
      · exact hminM
      · exact hall
  · refine ⟨?_, ?_, ?_⟩
    · simp only [process_input, ha, ht, hsel, hdrag, hm, hms, Bool.true_eq_false,
        Bool.false_eq_true, if_false, if_true, reduceIte]
      rw [layout_world_windows_id]
      · exact h0
      · exact hmin
    · have hgd := listModify_getD_eq w.scaleData i
        (fun sd => some { sd.getD defaultScaleRec with was_minimized := true }) none
        (by omega)
      simp only [process_input, ha, ht, hsel, hdrag, hm, hms, Bool.true_eq_false,
        Bool.false_eq_true, if_false, if_true, reduceIte]
      rw [layout_world_wasmin]
      · simp at hgd
        simp [hgd]
      · exact h0
      · simp only [listModify_length]; exact hlen
      · exact hmin
      · exact hallM
    · intro j hj
      have hgd := listModify_getD_ne w.scaleData i j
        (fun sd => some { sd.getD defaultScaleRec with was_minimized := true }) none hj
      simp only [process_input, ha, ht, hsel, hdrag, hm, hms, Bool.true_eq_false,
        Bool.false_eq_true, if_false, if_true, reduceIte]
      rw [layout_world_wasmin]
      · simp at hgd
        simp [hgd]
      · exact h0
      · simp only [listModify_length]; exact hlen
      · exact hmin
      · exact hallM
  · constructor
    · simp only [process_input, ha, ht, hsel, hdrag, hc, hm, Bool.true_eq_false,
        Bool.false_eq_true, if_false, if_true, reduceIte]
      rw [layout_world_windows_id]
      · exact h0
      · exact hmin
    · intro j
      simp only [process_input, ha, ht, hsel, hdrag, hc, hm, Bool.true_eq_false,
        Bool.false_eq_true, if_false, if_true, reduceIte]
      rw [layout_world_wasmin]
      · exact h0
      · exact hlen
      · exact hmin
      · exact hall

/-- A one-window world mid-gesture: travelled, window 0 pressed, dragged up
by 300 units. -/
def exWorldDrag : World :=
  { exWorld1 with st := { exStateActive with
      travelled := true
      last_selected := some 0
      touch_y_offset := -300 } }

/-- Witness for C6: pull-up past a quarter of the height with the "close"
action hides window 0, requests its close, and leaves every flag alone. -/
theorem travelled_release_action_spec_witness :
    (process_input exParams false (3, 4) 7 none exWorldDrag).windows =
        listModify exWorldDrag.windows 0
          (fun win => { win with hidden := true, closeRequested := true }) ∧
      ∀ j, ((process_input exParams false (3, 4) 7 none
            exWorldDrag).scaleData.getD j none).map (fun r => r.was_minimized) =
        (exWorldDrag.scaleData.getD j none).map (fun r => r.was_minimized) :=
  (travelled_release_action_spec exParams (3, 4) 7 none exWorldDrag 0 rfl rfl rfl
    (by simp [exWorldDrag, exWorld1])
    (by simp [exWorldDrag, exWorld1, exWindow])
    rfl
    (by simp [exWorldDrag, exWorld1, exRec])
    (by norm_num [exWorldDrag, exStateActive, exWorld1, exParams])).1
    (by norm_num [exWorldDrag, exStateActive, exWorld1, exParams])

/-! ### C3 -/

theorem max_one_scaled_w (p : Params) : max 1 (scaled_w p) = scaled_w p := by
  rw [scaled_w, max_comm (p.workarea_w * p.window_scale) 1, ← max_assoc, max_self]

theorem max_one_scaled_h (p : Params) : max 1 (scaled_h p) = scaled_h p := by
  rw [scaled_h, max_comm (p.workarea_h * p.window_scale) 1, ← max_assoc, max_self]

/-- C3: with the session active and zoom disallowed, the layout gives every
member of the tree of the view at index `j` the slot translation centering
it at `(x + scaledW/2, y + scaledH/2)` with
`x = offset_x + (spacing + scaledW) * (j - pan_offset)` and the vertical
drag offset added to `y` only for the selected window, and the scale
`min(scaledW/width, scaledH/height)` clamped to 1, a non-root child further
clamped to `max_scale_child` times the root's scale; in particular every
resulting scale is at most 1. -/
theorem layout_slots_targets_spec (p : Params) (xo yo : ℚ) (selected : Bool)
    (j : ℕ) (v : ViewTree) (hz : p.allow_scale_zoom = false) :
    layout_slot_targets p true xo yo selected j v =
      ({ tscale := min (min (scaled_w p / v.root.gw) (scaled_h p / v.root.gh)) 1,
         dx := offset_x p + (p.spacing + scaled_w p) * ((j : ℚ) - xo) -
           (v.root.gx + v.root.gw / 2) + scaled_w p / 2,
         dy := offset_y p + (if selected then yo else 0) -
           (v.root.gy + v.root.gh / 2) + scaled_h p / 2 } : Target) ::
        v.children.map (fun c =>
          { tscale := min (max_scale_child *
                min (min (scaled_w p / v.root.gw) (scaled_h p / v.root.gh)) 1)
              (min (min (scaled_w p / c.gw) (scaled_h p / c.gh)) 1),
            dx := offset_x p + (p.spacing + scaled_w p) * ((j : ℚ) - xo) -
              (c.gx + c.gw / 2) + scaled_w p / 2,
            dy := offset_y p + (if selected then yo else 0) -
              (c.gy + c.gh / 2) + scaled_h p / 2 }) ∧
    ∀ T ∈ layout_slot_targets p true xo yo selected j v, T.tscale ≤ 1 := by
  have heq : layout_slot_targets p true xo yo selected j v =
      ({ tscale := min (min (scaled_w p / v.root.gw) (scaled_h p / v.root.gh)) 1,
         dx := offset_x p + (p.spacing + scaled_w p) * ((j : ℚ) - xo) -
           (v.root.gx + v.root.gw / 2) + scaled_w p / 2,
         dy := offset_y p + (if selected then yo else 0) -
           (v.root.gy + v.root.gh / 2) + scaled_h p / 2 } : Target) ::
        v.children.map (fun c =>
          { tscale := min (max_scale_child *
                min (min (scaled_w p / v.root.gw) (scaled_h p / v.root.gh)) 1)
              (min (min (scaled_w p / c.gw) (scaled_h p / c.gh)) 1),
            dx := offset_x p + (p.spacing + scaled_w p) * ((j : ℚ) - xo) -
              (c.gx + c.gw / 2) + scaled_w p / 2,
            dy := offset_y p + (if selected then yo else 0) -
              (c.gy + c.gh / 2) + scaled_h p / 2 }) := by
    simp only [layout_slot_targets, child_target, calculate_scale, hz, max_scale_factor,
      max_one_scaled_w, max_one_scaled_h, Bool.true_eq_false, Bool.false_eq_true,
      if_false, if_true, reduceIte, eq_self_iff_true, and_true, true_and,
      sub_add_eq_sub_sub]
    norm_num [max_scale_child]
    intro c hcm
    simp only [child_target, calculate_scale, hz, max_scale_factor, max_one_scaled_w,
      max_one_scaled_h, Bool.true_eq_false, Bool.false_eq_true, if_false, if_true,
      reduceIte, sub_add_eq_sub_sub]
    norm_num [max_scale_child]
  refine ⟨heq, ?_⟩
  intro T hT
  rw [heq] at hT
  simp only [List.mem_cons, List.mem_map] at hT
  rcases hT with rfl | ⟨c, hcm, rfl⟩
  · exact min_le_right _ _
  · exact le_trans (min_le_right _ _) (min_le_right _ _)

/-- Witness for C3: the spec's 3-window scenario slot for index 1 with
pan offset 1 — window 1's 800x600 tree lands centered with scale 5/8. -/
theorem layout_slots_targets_spec_witness :
    layout_slot_targets exParams true 1 0 false 1 ⟨exGeom, []⟩ =
        [⟨5/8, 100, 200⟩] ∧
      ∀ T ∈ layout_slot_targets exParams true 1 0 false 1 ⟨exGeom, []⟩,
        T.tscale ≤ 1 := by
  have h := layout_slots_targets_spec exParams 1 0 false 1 ⟨exGeom, []⟩ rfl
  refine ⟨?_, h.2⟩
  rw [h.1]
  norm_num [exParams, exGeom, scaled_w, scaled_h, offset_x, offset_y, max_scale_child]

/-! ### C1 -/

theorem add_transformer1_st (j : ℕ) (w : World) : (add_transformer1 j w).2.st = w.st := by
  unfold add_transformer1
  cases w.scaleData.getD j none <;> rfl

theorem add_transformer1_windows (j : ℕ) (w : World) :
    (add_transformer1 j w).2.windows = w.windows := by
  unfold add_transformer1
  cases w.scaleData.getD j none <;> rfl

theorem foldl_add_preserve (l : List ℕ) : ∀ w : World,
    ((l.foldl (fun acc j =>
        if (acc.windows.getD j default).minimized then acc
        else (add_transformer1 j acc).2) w).st = w.st ∧
     (l.foldl (fun acc j =>
        if (acc.windows.getD j default).minimized then acc
        else (add_transformer1 j acc).2) w).windows = w.windows) := by
  induction l with
  | nil => intro w; exact ⟨rfl, rfl⟩
  | cons a l ih =>
    intro w
    rw [List.foldl_cons]
    by_cases h : (w.windows.getD a default).minimized = true
    · rw [if_pos h]
      exact ih w
    · rw [if_neg h]
      have hrec := ih (add_transformer1 a w).2
      exact ⟨hrec.1.trans (add_transformer1_st a w),
        hrec.2.trans (add_transformer1_windows a w)⟩

theorem addAll_st (w : World) : (addAll w).st = w.st :=
  (foldl_add_preserve (List.range w.windows.length) w).1

theorem addAll_windows (w : World) : (addAll w).windows = w.windows :=
  (foldl_add_preserve (List.range w.windows.length) w).2

theorem layout_world_touch_x (p : Params) (w : World) (h0 : w.windows.length ≠ 0) :
    (layout_world p w).st.touch_x_offset = w.st.touch_x_offset := by
  rw [layout_world_st p w h0]

/-- C1: `activate()` returns false with the session state untouched when
already active or when the window list is empty (or when the compositor
refuses the plugin slot); on success it points the pan offset at the
focused view's index (0 when none), so for any window count at least 1 the
offset afterwards is a present (non-NaN) value inside `[0, n-1]`. -/
theorem activate_pan_offset_in_range (p : Params) (pluginOk : Bool)
    (focused : Option ℕ) (w : World) :
    (w.st.active = true → activate p pluginOk focused w = (false, w)) ∧
    (w.windows.length = 0 → activate p pluginOk focused w = (false, w)) ∧
    (w.st.active = false → pluginOk = true → 1 ≤ w.windows.length →
      (∀ i, focused = some i → i < w.windows.length) →
      (activate p pluginOk focused w).1 = true ∧
      ∃ q : ℚ, (activate p pluginOk focused w).2.st.touch_x_offset = some q ∧
        0 ≤ q ∧ q ≤ (w.windows.length : ℚ) - 1) := by
  refine ⟨fun h => by simp [activate, h], fun h => ?_, fun ha hok hn hf => ?_⟩
  · by_cases ha : w.st.active
    · simp [activate, ha]
    · cases pluginOk <;> simp [activate, ha, h]
  · have hne : ¬(w.windows.length = 0) := by omega
    have hred : activate p pluginOk focused w =
        (true, layout_world p (addAll { w with st := { w.st with
          travelled := false
          touch_held := false
          touch_x_offset := some ((focused.getD 0 : ℕ) : ℚ)
          last_selected := none
          active := true } })) := by
      simp [activate, ha, hok, hne]
    rw [hred]
    refine ⟨rfl, ⟨((focused.getD 0 : ℕ) : ℚ), ?_, by positivity, ?_⟩⟩
    · rw [layout_world_touch_x _ _ (by rw [addAll_windows]; exact hne),
        addAll_st]
    · cases hfc : focused with
      | none =>
        have h1 : (1 : ℚ) ≤ (w.windows.length : ℚ) := by exact_mod_cast hn
        simpa [hfc] using by linarith
      | some i =>
        have hi := hf i hfc
        have h1 : (i : ℚ) + 1 ≤ (w.windows.length : ℚ) := by exact_mod_cast hi
        simp only [hfc, Option.getD_some]
        linarith

/-- Witness for C1: activating an idle 3-window world with window 1
focused. -/
theorem activate_pan_offset_in_range_witness :
    (activate exParams true (some 1) exWorldIdle3).1 = true ∧
    ∃ q : ℚ, (activate exParams true (some 1) exWorldIdle3).2.st.touch_x_offset =
        some q ∧ 0 ≤ q ∧ q ≤ (exWorldIdle3.windows.length : ℚ) - 1 :=
  (activate_pan_offset_in_range exParams true (some 1) exWorldIdle3).2.2 rfl rfl
    (by simp [exWorldIdle3])
    (fun i hi => by injection hi with h; subst h; simp [exWorldIdle3])

/-! ### C2 -/

theorem layout_world_velocity (p : Params) (w : World) (h0 : w.windows.length ≠ 0) :
    (layout_world p w).st.velocity =
      if w.st.touch_held then w.st.velocity else (is_velocity_zero w.st.velocity).2 := by
  rw [layout_world_st p w h0]

theorem layout_world_swipe (p : Params) (w : World) (h0 : w.windows.length ≠ 0) :
    (layout_world p w).st.swipe_direction = w.st.swipe_direction := by
  rw [layout_world_st p w h0]

theorem layout_world_active (p : Params) (w : World) (h0 : w.windows.length ≠ 0) :
    (layout_world p w).st.active = w.st.active := by
  rw [layout_world_st p w h0]

theorem layout_world_held (p : Params) (w : World) (h0 : w.windows.length ≠ 0) :
    (layout_world p w).st.touch_held = w.st.touch_held := by
  rw [layout_world_st p w h0]

theorem is_velocity_zero_zero : is_velocity_zero ((0 : ℚ), (0 : ℚ)) = (true, (0, 0)) := by
  norm_num [is_velocity_zero, speedSq]

theorem is_velocity_zero_zero' : is_velocity_zero (0 : ℚ × ℚ) = (true, 0) := by
  norm_num [is_velocity_zero, speedSq]

/-- Value of the size_t upper clamp bound `(double)(views.size() - 1)` for a
nonempty list below 2^64, phrased with the numerals 2^64 - 1 and 2^64
evaluated the way simp normalizes them. -/
theorem hrm_bound_eq (n : ℕ) (hn : 1 ≤ n) (hn2 : n < 2 ^ 64) :
    (((n + 18446744073709551615) % 18446744073709551616 : ℕ) : ℚ) = (n : ℚ) - 1 := by
  have hmod : (n + 18446744073709551615) % 18446744073709551616 = n - 1 := by omega
  rw [hmod, Nat.cast_sub hn, Nat.cast_one]

theorem hrm_low (p : Params) (d : ℚ × ℚ) (w : World) (x0 : ℚ)
    (hsw : w.st.swipe_direction = SwipeDir.HORIZONTAL)
    (hx : w.st.touch_x_offset = some x0)
    (h1 : x0 - d.1 / (p.spacing + scaled_w p) < 0) :
    handle_relative_motion p d w = layout_world p { w with st := { w.st with
      touch_y_offset := 0
      touch_x_offset := some 0
      velocity := ((0 : ℚ), (0 : ℚ)) } } := by
  simp [handle_relative_motion, hsw, hx, h1]

theorem hrm_high (p : Params) (d : ℚ × ℚ) (w : World) (x0 : ℚ)
    (hsw : w.st.swipe_direction = SwipeDir.HORIZONTAL)
    (hx : w.st.touch_x_offset = some x0)
    (hn : 1 ≤ w.windows.length) (hn2 : w.windows.length < 2 ^ 64)
    (h1 : ¬(x0 - d.1 / (p.spacing + scaled_w p) < 0))
    (h2 : (w.windows.length : ℚ) - 1 ≤ x0 - d.1 / (p.spacing + scaled_w p)) :
    handle_relative_motion p d w = layout_world p { w with st := { w.st with
      touch_y_offset := 0
      touch_x_offset := some ((w.windows.length : ℚ) - 1)
      velocity := ((0 : ℚ), (0 : ℚ)) } } := by
  have hb := hrm_bound_eq w.windows.length hn hn2
  simp [handle_relative_motion, hsw, hx, hb, h1, h2]

theorem hrm_mid (p : Params) (d : ℚ × ℚ) (w : World) (x0 : ℚ)
    (hsw : w.st.swipe_direction = SwipeDir.HORIZONTAL)
    (hx : w.st.touch_x_offset = some x0)
    (hn : 1 ≤ w.windows.length) (hn2 : w.windows.length < 2 ^ 64)
    (h1 : 0 ≤ x0 - d.1 / (p.spacing + scaled_w p))
    (h2 : x0 - d.1 / (p.spacing + scaled_w p) < (w.windows.length : ℚ) - 1) :
    handle_relative_motion p d w = layout_world p { w with st := { w.st with
      touch_y_offset := 0
      touch_x_offset := some (x0 - d.1 / (p.spacing + scaled_w p)) } } := by
  have hb := hrm_bound_eq w.windows.length hn hn2
  simp [handle_relative_motion, hsw, hx, hb, not_lt.mpr h1, not_le.mpr h2]

/-- One committed-horizontal motion always lands the offset in `[0, n-1]`
and preserves the gesture invariants. -/
theorem hrm_horizontal_step (p : Params) (d : ℚ × ℚ) (w : World) (x0 : ℚ)
    (hsw : w.st.swipe_direction = SwipeDir.HORIZONTAL)
    (hx : w.st.touch_x_offset = some x0)
    (hn : 1 ≤ w.windows.length) (hn2 : w.windows.length < 2 ^ 64) :
    (∃ x', (handle_relative_motion p d w).st.touch_x_offset = some x' ∧
      0 ≤ x' ∧ x' ≤ (w.windows.length : ℚ) - 1) ∧
    (handle_relative_motion p d w).st.swipe_direction = SwipeDir.HORIZONTAL ∧
    (handle_relative_motion p d w).windows.length = w.windows.length := by
  have h0 : w.windows.length ≠ 0 := by omega
  have hone : (1 : ℚ) ≤ (w.windows.length : ℚ) := by exact_mod_cast hn
  by_cases h1 : x0 - d.1 / (p.spacing + scaled_w p) < 0
  · rw [hrm_low p d w x0 hsw hx h1]
    refine ⟨⟨0, ?_, le_refl 0, by linarith⟩, ?_, ?_⟩
    · rw [layout_world_touch_x]
      exact h0
    · rw [layout_world_swipe]
      · exact hsw
      · exact h0
    · rw [layout_world_windows_length]
      exact h0
  · by_cases h2 : (w.windows.length : ℚ) - 1 ≤ x0 - d.1 / (p.spacing + scaled_w p)
    · rw [hrm_high p d w x0 hsw hx hn hn2 h1 h2]
      refine ⟨⟨(w.windows.length : ℚ) - 1, ?_, by linarith, le_refl _⟩, ?_, ?_⟩
      · rw [layout_world_touch_x]
        exact h0
      · rw [layout_world_swipe]
        · exact hsw
        · exact h0
      · rw [layout_world_windows_length]
        exact h0
    · rw [hrm_mid p d w x0 hsw hx hn hn2 (not_lt.mp h1) (not_le.mp h2)]
      refine ⟨⟨x0 - d.1 / (p.spacing + scaled_w p), ?_, not_lt.mp h1,
          le_of_lt (not_le.mp h2)⟩, ?_, ?_⟩
      · rw [layout_world_touch_x]
        exact h0
      · rw [layout_world_swipe]
        · exact hsw
        · exact h0
      · rw [layout_world_windows_length]
        exact h0

theorem hrm_fold_range (p : Params) (ds : List (ℚ × ℚ)) : ∀ (w : World) (x0 : ℚ),
    w.st.swipe_direction = SwipeDir.HORIZONTAL →
    w.st.touch_x_offset = some x0 →
    0 ≤ x0 → x0 ≤ (w.windows.length : ℚ) - 1 →
    1 ≤ w.windows.length → w.windows.length < 2 ^ 64 →
    ∃ x', (ds.foldl (fun acc dd => handle_relative_motion p dd acc)
        w).st.touch_x_offset = some x' ∧
      0 ≤ x' ∧ x' ≤ (w.windows.length : ℚ) - 1 := by
  induction ds with
  | nil => intro w x0 _ h2 h3 h4 _ _; exact ⟨x0, h2, h3, h4⟩
  | cons dd ds ih =>
    intro w x0 h1 h2 h3 h4 h5 h6
    obtain ⟨⟨x', hx', hx0, hx1⟩, hsw', hlen'⟩ :=
      hrm_horizontal_step p dd w x0 h1 h2 h5 h6
    have hrec := ih (handle_relative_motion p dd w) x' hsw' hx'
      hx0 (by rw [hlen']; exact hx1) (by rw [hlen']; exact h5) (by rw [hlen']; exact h6)
    rw [List.foldl_cons]
    obtain ⟨y, hy1, hy2, hy3⟩ := hrec
    exact ⟨y, hy1, hy2, by rw [← hlen']; exact hy3⟩

/-- C2: while a gesture is committed Horizontal, every relative-motion delta
(pointer, touch or synthesized momentum) updates the pan offset by
`pan_offset -= dx / (spacing + scaled_width)` and clamps it into `[0, n-1]`,
zeroing the velocity when either bound is hit; iterating any further motion
sequence keeps the offset inside `[0, n-1]`. -/
theorem horizontal_motion_clamp (p : Params) (d : ℚ × ℚ) (w : World) (x0 : ℚ)
    (hsw : w.st.swipe_direction = SwipeDir.HORIZONTAL)
    (hx : w.st.touch_x_offset = some x0)
    (hn : 1 ≤ w.windows.length) (hn2 : w.windows.length < 2 ^ 64) :
    (x0 - d.1 / (p.spacing + scaled_w p) < 0 →
      (handle_relative_motion p d w).st.touch_x_offset = some 0 ∧
      (handle_relative_motion p d w).st.velocity = (0, 0)) ∧
    (¬(x0 - d.1 / (p.spacing + scaled_w p) < 0) →
      (w.windows.length : ℚ) - 1 ≤ x0 - d.1 / (p.spacing + scaled_w p) →
      (handle_relative_motion p d w).st.touch_x_offset =
        some ((w.windows.length : ℚ) - 1) ∧
      (handle_relative_motion p d w).st.velocity = (0, 0)) ∧
    (0 ≤ x0 - d.1 / (p.spacing + scaled_w p) →
      x0 - d.1 / (p.spacing + scaled_w p) < (w.windows.length : ℚ) - 1 →
      (handle_relative_motion p d w).st.touch_x_offset =
        some (x0 - d.1 / (p.spacing + scaled_w p))) ∧
    (∃ x', (handle_relative_motion p d w).st.touch_x_offset = some x' ∧
      0 ≤ x' ∧ x' ≤ (w.windows.length : ℚ) - 1) ∧
    (∀ ds : List (ℚ × ℚ), ∃ x',
      (ds.foldl (fun acc dd => handle_relative_motion p dd acc)
          (handle_relative_motion p d w)).st.touch_x_offset = some x' ∧
      0 ≤ x' ∧ x' ≤ (w.windows.length : ℚ) - 1) := by
  have h0 : w.windows.length ≠ 0 := by omega
  refine ⟨fun h1 => ?_, fun h1 h2 => ?_, fun h1 h2 => ?_, ?_, fun ds => ?_⟩
  · rw [hrm_low p d w x0 hsw hx h1]
    refine ⟨?_, ?_⟩
    · rw [layout_world_touch_x]
      exact h0
    · rw [layout_world_velocity]
      · simp only [is_velocity_zero_zero]
        split <;> rfl
      · exact h0
  · rw [hrm_high p d w x0 hsw hx hn hn2 h1 h2]
    refine ⟨?_, ?_⟩
    · rw [layout_world_touch_x]
      exact h0
    · rw [layout_world_velocity]
      · simp only [is_velocity_zero_zero]
        split <;> rfl
      · exact h0
  · rw [hrm_mid p d w x0 hsw hx hn hn2 h1 h2]
    rw [layout_world_touch_x]
    exact h0
  · exact (hrm_horizontal_step p d w x0 hsw hx hn hn2).1
  · obtain ⟨⟨x', hx', hx0, hx1⟩, hsw', hlen'⟩ :=
      hrm_horizontal_step p d w x0 hsw hx hn hn2
    obtain ⟨y, hy1, hy2, hy3⟩ := hrm_fold_range p ds (handle_relative_motion p d w) x'
      hsw' hx' hx0 (by rw [hlen']; exact hx1) (by rw [hlen']; exact hn)
      (by rw [hlen']; exact hn2)
    exact ⟨y, hy1, hy2, by rw [← hlen']; exact hy3⟩

/-- A three-window world committed to a horizontal swipe sitting on slot 0. -/
def exWorldH : World :=
  { st := { exStateActive with swipe_direction := SwipeDir.HORIZONTAL },
    windows := [exWindow, exWindow, exWindow],
    scaleData := [some exRec, some exRec, some exRec], addedSignals := [] }

/-- Witness for C2: a large rightward delta clamps the offset at 0 and
zeroes the velocity. -/
theorem horizontal_motion_clamp_witness :
    (handle_relative_motion exParams (5200, 0) exWorldH).st.touch_x_offset = some 0 ∧
    (handle_relative_motion exParams (5200, 0) exWorldH).st.velocity = (0, 0) :=
  (horizontal_motion_clamp exParams (5200, 0) exWorldH 0 rfl rfl
    (by simp [exWorldH]) (by simp [exWorldH])).1
    (by norm_num [scaled_w, exParams])

/-! ### C4 -/

/-- The absorbing state of the momentum simulation: velocity zeroed and the
pan offset resting on an integer slot. -/
def momentum_done (w : World) : Prop :=
  w.st.velocity = (0, 0) ∧ ∃ z : ℤ, w.st.touch_x_offset = some (z : ℚ)

theorem post_hook_step_fixed (p : Params) (t : ℕ) (w : World)
    (ha : w.st.active = true) (hv : w.st.velocity = (0, 0)) :
    post_hook_step p t w = w := by
  obtain ⟨st, ws, sds, sig⟩ := w
  obtain ⟨a, hs, th, tr, ft, sw, xo, yo, ls, ve, sf, lt, stc⟩ := st
  simp only at ha hv
  subst ha; subst hv
  simp [post_hook_step, is_velocity_zero_zero, is_velocity_zero_zero']

theorem run_ticks_done (p : Params) (l : List ℕ) : ∀ w : World,
    w.st.active = true → w.st.velocity = (0, 0) → run_ticks p l w = w := by
  induction l with
  | nil => intro w _ _; rfl
  | cons t ts ih =>
    intro w ha hv
    rw [run_ticks, post_hook_step_fixed p t w ha hv, ih w ha hv]

theorem layout_world_flick (p : Params) (w : World) (h0 : w.windows.length ≠ 0) :
    (layout_world p w).st.flick_timestamp = w.st.flick_timestamp := by
  rw [layout_world_st p w h0]

set_option maxHeartbeats 1600000 in
/-- One momentum tick starting above the speed threshold: the session stays
active and unheld with the same window count, and either the simulation has
been absorbed (velocity zero, integer offset — via the snap or via a clamp)
or exactly one friction factor has been applied to the speed. -/
theorem momentum_tick (p : Params) (t : ℕ) (w : World)
    (ha : w.st.active = true) (hh : w.st.touch_held = false)
    (hn : 1 ≤ w.windows.length) (hn2 : w.windows.length < 2 ^ 64)
    (hs : w.st.touch_x_offset.isSome = true)
    (hmov : (1/10 : ℚ) * (1/10) < speedSq w.st.velocity) :
    (post_hook_step p t w).st.active = true ∧
    (post_hook_step p t w).st.touch_held = false ∧
    (post_hook_step p t w).windows.length = w.windows.length ∧
    (momentum_done (post_hook_step p t w) ∨
      ((post_hook_step p t w).st.touch_x_offset.isSome = true ∧
       speedSq (post_hook_step p t w).st.velocity =
         p.flick_motion * p.flick_motion * speedSq w.st.velocity ∧
       (1/10 : ℚ) * (1/10) <
         speedSq (post_hook_step p t w).st.velocity)) := by
  have h0 : w.windows.length ≠ 0 := by omega
  obtain ⟨q, hq⟩ := Option.isSome_iff_exists.mp hs
  have hz1 : is_velocity_zero w.st.velocity = (false, w.st.velocity) := by
    unfold is_velocity_zero
    rw [if_pos hmov]
  by_cases hb3 : (1/10 : ℚ) * (1/10) <
      speedSq (w.st.velocity.1 * p.flick_motion, w.st.velocity.2 * p.flick_motion)
  · -- still moving after friction: a synthetic motion is replayed
    have hz3 : is_velocity_zero
        (w.st.velocity.1 * p.flick_motion, w.st.velocity.2 * p.flick_motion) =
        (false, (w.st.velocity.1 * p.flick_motion, w.st.velocity.2 * p.flick_motion)) := by
      unfold is_velocity_zero
      rw [if_pos hb3]
    have hred : post_hook_step p t w = handle_relative_motion p
        (w.st.velocity.1 * p.flick_motion * ((t - w.st.flick_timestamp : ℕ) : ℚ),
         w.st.velocity.2 * p.flick_motion * ((t - w.st.flick_timestamp : ℕ) : ℚ))
        { w with st := { w.st with
          velocity := (w.st.velocity.1 * p.flick_motion, w.st.velocity.2 * p.flick_motion)
          flick_timestamp := t } } := by
      simp [post_hook_step, hz1, hz3, hh]
    have hsp : speedSq
        (w.st.velocity.1 * p.flick_motion, w.st.velocity.2 * p.flick_motion) =
        p.flick_motion * p.flick_motion * speedSq w.st.velocity := by
      simp only [speedSq]
      ring
    rw [hred]
    cases hsw : w.st.swipe_direction with
    | UNDECIDED =>
      have hone : handle_relative_motion p
          (w.st.velocity.1 * p.flick_motion * ((t - w.st.flick_timestamp : ℕ) : ℚ),
           w.st.velocity.2 * p.flick_motion * ((t - w.st.flick_timestamp : ℕ) : ℚ))
          { w with st := { w.st with
            velocity := (w.st.velocity.1 * p.flick_motion, w.st.velocity.2 * p.flick_motion)
            flick_timestamp := t } } =
          { w with st := { w.st with
            velocity := (w.st.velocity.1 * p.flick_motion, w.st.velocity.2 * p.flick_motion)
            flick_timestamp := t } } := by
      
        simp [handle_relative_motion, hsw]
      rw [hone]
      refine ⟨ha, hh, rfl, Or.inr ⟨?_, ?_, ?_⟩⟩
      · simp [hq]
      · rw [hsp]
      · rw [hsp] at hb3 ⊢
        exact hb3
    | VERTICAL =>
      have hone : handle_relative_motion p
          (w.st.velocity.1 * p.flick_motion * ((t - w.st.flick_timestamp : ℕ) : ℚ),
           w.st.velocity.2 * p.flick_motion * ((t - w.st.flick_timestamp : ℕ) : ℚ))
          { w with st := { w.st with
            velocity := (w.st.velocity.1 * p.flick_motion, w.st.velocity.2 * p.flick_motion)
            flick_timestamp := t } } =
          layout_world p { w with st := { w.st with
            velocity := (w.st.velocity.1 * p.flick_motion, w.st.velocity.2 * p.flick_motion)
            flick_timestamp := t
            touch_y_offset := w.st.touch_y_offset +
              w.st.velocity.2 * p.flick_motion * ((t - w.st.flick_timestamp : ℕ) : ℚ) } } := by
      
        simp [handle_relative_motion, hsw]
      rw [hone]
      refine ⟨?_, ?_, ?_, Or.inr ⟨?_, ?_, ?_⟩⟩
      · rw [layout_world_active]
        · exact ha
        · exact h0
      · rw [layout_world_held]
        · exact hh
        · exact h0
      · rw [layout_world_windows_length]
        exact h0
      · rw [layout_world_touch_x]
        · simp [hq]
        · exact h0
      · rw [layout_world_velocity]
        · simp [hh, hz3, hsp]
        · exact h0
      · rw [layout_world_velocity]
        · simp only [hh, Bool.false_eq_true, if_false, hz3]
          rw [hsp] at hb3 ⊢
          exact hb3
        · exact h0
    | HORIZONTAL =>
      by_cases hlow : q - (w.st.velocity.1 * p.flick_motion *
          ((t - w.st.flick_timestamp : ℕ) : ℚ)) / (p.spacing + scaled_w p) < 0
      · rw [hrm_low p _ _ q]
        · refine ⟨?_, ?_, ?_, Or.inl ⟨?_, ⟨0, ?_⟩⟩⟩
          · rw [layout_world_active]
            · exact ha
            · exact h0
          · rw [layout_world_held]
            · exact hh
            · exact h0
          · rw [layout_world_windows_length]
            exact h0
          · rw [layout_world_velocity]
            · simp only [is_velocity_zero_zero]
              split <;> rfl
            · exact h0
          · rw [layout_world_touch_x]
            · norm_num
            · exact h0
        · exact hsw
        · exact hq
        · exact hlow
      · by_cases hhigh : (w.windows.length : ℚ) - 1 ≤
            q - (w.st.velocity.1 * p.flick_motion *
              ((t - w.st.flick_timestamp : ℕ) : ℚ)) / (p.spacing + scaled_w p)
        · rw [hrm_high p _ _ q]
          · refine ⟨?_, ?_, ?_, Or.inl ⟨?_, ⟨(w.windows.length : ℤ) - 1, ?_⟩⟩⟩
            · rw [layout_world_active]
              · exact ha
              · exact h0
            · rw [layout_world_held]
              · exact hh
              · exact h0
            · rw [layout_world_windows_length]
              exact h0
            · rw [layout_world_velocity]
              · simp only [is_velocity_zero_zero]
                split <;> rfl
              · exact h0
            · rw [layout_world_touch_x]
              · push_cast
                rfl
              · exact h0
          · exact hsw
          · exact hq
          · exact hn
          · exact hn2
          · exact hlow
          · exact hhigh
        · rw [hrm_mid p _ _ q]
          · refine ⟨?_, ?_, ?_, Or.inr ⟨?_, ?_, ?_⟩⟩
            · rw [layout_world_active]
              · exact ha
              · exact h0
            · rw [layout_world_held]
              · exact hh
              · exact h0
            · rw [layout_world_windows_length]
              exact h0
            · rw [layout_world_touch_x]
              · rfl
              · exact h0
            · rw [layout_world_velocity]
              · simp [hh, hz3, hsp]
              · exact h0
            · rw [layout_world_velocity]
              · simp only [hh, Bool.false_eq_true, if_false, hz3]
                rw [hsp] at hb3 ⊢
                exact hb3
              · exact h0
          · exact hsw
          · exact hq
          · exact hn
          · exact hn2
          · exact not_lt.mp hlow
          · exact not_le.mp hhigh
  · -- the speed fell to or below the threshold: snap
    have hz3 : is_velocity_zero
        (w.st.velocity.1 * p.flick_motion, w.st.velocity.2 * p.flick_motion) =
        (true, (0, 0)) := by
      unfold is_velocity_zero
      rw [if_neg hb3]
    have hred : post_hook_step p t w = layout_world p { w with st := { w.st with
        velocity := ((0 : ℚ), (0 : ℚ))
        touch_x_offset := some ((roundAway q : ℤ) : ℚ)
        flick_timestamp := 0
        start_flick := ((0 : ℚ), (0 : ℚ))
        start_touch := ((0 : ℚ), (0 : ℚ)) } } := by
      simp [post_hook_step, hz1, hz3, hh, hq]
    rw [hred]
    refine ⟨?_, ?_, ?_, Or.inl ⟨?_, ⟨roundAway q, ?_⟩⟩⟩
    · rw [layout_world_active]
      · exact ha
      · exact h0
    · rw [layout_world_held]
      · exact hh
      · exact h0
    · rw [layout_world_windows_length]
      exact h0
    · rw [layout_world_velocity]
      · simp only [is_velocity_zero_zero]
        split <;> rfl
      · exact h0
    · rw [layout_world_touch_x]
      exact h0

theorem run_ticks_invariant (p : Params) (l : List ℕ) : ∀ w : World,
    w.st.active = true → w.st.touch_held = false →
    1 ≤ w.windows.length → w.windows.length < 2 ^ 64 →
    w.st.touch_x_offset.isSome = true →
    (1/10 : ℚ) * (1/10) < speedSq w.st.velocity →
    momentum_done (run_ticks p l w) ∨
      speedSq (run_ticks p l w).st.velocity =
        (p.flick_motion * p.flick_motion) ^ l.length * speedSq w.st.velocity ∧
      (1/10 : ℚ) * (1/10) < speedSq (run_ticks p l w).st.velocity := by
  induction l with
  | nil =>
    intro w _ _ _ _ _ hmov
    right
    exact ⟨by simp [run_ticks], hmov⟩
  | cons t ts ih =>
    intro w ha hh hn hn2 hs hmov
    obtain ⟨ha', hh', hlen', hstep⟩ := momentum_tick p t w ha hh hn hn2 hs hmov
    rw [run_ticks]
    rcases hstep with hdone | ⟨hs', hsp', hmov'⟩
    · left
      rw [run_ticks_done p ts (post_hook_step p t w) ha' hdone.1]
      exact hdone
    · rcases ih (post_hook_step p t w) ha' hh' (by omega) (by omega) hs' hmov' with
        hdone | ⟨hsp'', hmov''⟩
      · left
        exact hdone
      · right
        refine ⟨?_, hmov''⟩
        rw [hsp'', hsp', List.length_cons, pow_succ]
        ring

/-- A one-window world in flight: slot offset one half, velocity 1 unit/ms
rightward, gesture released. -/
def exWorldMom : World :=
  { exWorld1 with st := { exStateActive with
      touch_x_offset := some (1/2)
      velocity := (1, 0) } }

/-- A one-window world with a sub-threshold residual velocity and a
fractional offset. -/
def exWorldTiny : World :=
  { exWorld1 with st := { exStateActive with
      touch_x_offset := some (1/2)
      velocity := (1/20, 0) } }

/-- C4, as stated, is false on the code: with an initial speed at or below
the 0.1 threshold (reachable: a slow flick release sets such a velocity and
leaves the offset fractional), the `running` probe of the first tick zeroes
the velocity without ever reaching the snap branch, so the offset is never
rounded: the tick reaches a fixed point whose pan offset stays at 1/2. -/
theorem momentum_small_velocity_no_snap :
    (post_hook_step exParams 5 exWorldTiny).st.velocity = (0, 0) ∧
    (post_hook_step exParams 5 exWorldTiny).st.touch_x_offset = some (1/2) ∧
    post_hook_step exParams 6 (post_hook_step exParams 5 exWorldTiny) =
      post_hook_step exParams 5 exWorldTiny := by
  have h1 : post_hook_step exParams 5 exWorldTiny =
      { exWorldTiny with st := { exWorldTiny.st with velocity := ((0 : ℚ), (0 : ℚ)) } } := by
    norm_num [post_hook_step, is_velocity_zero, speedSq, exWorldTiny, exWorld1,
      exStateActive, anim_running, exRec]
  rw [h1]
  refine ⟨rfl, rfl, ?_⟩
  exact post_hook_step_fixed exParams 6 _ rfl rfl

/-- C4 (amended): momentum never runs while the gesture is held, and for
any initial velocity whose speed is above the 0.1 units/ms threshold (and
non-NaN offset), each tick multiplies the velocity by the friction factor
until the speed falls to or below the threshold, at which point the
velocity snaps to zero and the pan offset ends at an integer (by the
rounding snap, or at a clamped bound): for friction in (0,1) this happens
after a finite, deterministic number of ticks, whatever the tick
timestamps.  An initial speed already at or below the threshold is zeroed
by the running probe without the offset ever being rounded. -/
theorem momentum_convergence (p : Params) (w : World) (q : ℚ)
    (ha : w.st.active = true) (hh : w.st.touch_held = false)
    (hn : 1 ≤ w.windows.length) (hn2 : w.windows.length < 2 ^ 64)
    (hq : w.st.touch_x_offset = some q)
    (hmov : (1/10 : ℚ) * (1/10) < speedSq w.st.velocity)
    (hf0 : 0 < p.flick_motion) (hf1 : p.flick_motion < 1) :
    (∃ N : ℕ, ∀ l : List ℕ, l.length = N →
      (run_ticks p l w).st.velocity = (0, 0) ∧
      ∃ z : ℤ, (run_ticks p l w).st.touch_x_offset = some (z : ℚ)) ∧
    (∀ (s : ℕ) (w2 : World), w2.st.touch_held = true → w2.st.active = true →
      (post_hook_step p s w2).st.touch_x_offset = w2.st.touch_x_offset ∧
      (post_hook_step p s w2).st.velocity = (is_velocity_zero w2.st.velocity).2 ∧
      (post_hook_step p s w2).st.flick_timestamp = w2.st.flick_timestamp) := by
  constructor
  · have hspos : 0 < speedSq w.st.velocity := lt_trans (by norm_num) hmov
    have hg1 : p.flick_motion * p.flick_motion < 1 := by nlinarith
    have hε : 0 < (1/10 : ℚ) * (1/10) / speedSq w.st.velocity := by positivity
    obtain ⟨N, hN⟩ := exists_pow_lt_of_lt_one hε hg1
    refine ⟨N, fun l hl => ?_⟩
    rcases run_ticks_invariant p l w ha hh hn hn2 (by rw [hq]; rfl) hmov with
      hdone | ⟨hsp, hmov'⟩
    · exact hdone
    · exfalso
      rw [hsp, hl] at hmov'
      have hlt : (p.flick_motion * p.flick_motion) ^ N * speedSq w.st.velocity <
          (1/10 : ℚ) * (1/10) := by
        have := mul_lt_mul_of_pos_right hN hspos
        rwa [div_mul_cancel₀ _ (ne_of_gt hspos)] at this
      linarith
  · intro s w2 hh2 ha2
    have hred : post_hook_step p s w2 =
        { w2 with st := { w2.st with velocity := (is_velocity_zero w2.st.velocity).2 } } := by
      simp [post_hook_step, hh2, ha2]
    rw [hred]
    exact ⟨rfl, rfl, rfl⟩

/-- Witness for C4's amended theorem on a released one-window world flying
at speed 1. -/
theorem momentum_convergence_witness :
    (∃ N : ℕ, ∀ l : List ℕ, l.length = N →
      (run_ticks exParams l exWorldMom).st.velocity = (0, 0) ∧
      ∃ z : ℤ, (run_ticks exParams l exWorldMom).st.touch_x_offset = some (z : ℚ)) ∧
    (∀ (s : ℕ) (w2 : World), w2.st.touch_held = true → w2.st.active = true →
      (post_hook_step exParams s w2).st.touch_x_offset = w2.st.touch_x_offset ∧
      (post_hook_step exParams s w2).st.velocity = (is_velocity_zero w2.st.velocity).2 ∧
      (post_hook_step exParams s w2).st.flick_timestamp = w2.st.flick_timestamp) :=
  momentum_convergence exParams exWorldMom (1/2) rfl rfl
    (by simp [exWorldMom, exWorld1]) (by simp [exWorldMom, exWorld1]) rfl
    (by norm_num [exWorldMom, exStateActive, speedSq])
    (by norm_num [exParams]) (by norm_num [exParams])

end Touchswitch
